import Mathlib

/-!
Shallow embedding of the fee-harvest-and-distribute workflow of the
Fee_distributor repository (src/src/check_fee_threshold.ts and the swap /
distribution module src/unnamed/part_000), together with proofs of the
frozen claims about it.

Conventions of the embedding:
* On-chain state visible to one call is a `Ledger` snapshot: the owner
  program of the mint account (`none` when `getAccountInfo` finds no
  account), the token accounts returned by `getProgramAccounts` for the
  mint filter, and whether the authority's associated token account for
  the mint (the custody account) exists.
* Withheld amounts and balances are `Nat` (u64 values); the configured
  threshold `threshHold` is `ℚ`, since it comes from
  `Number(process.env.THRESH_HOLD) || 0`, a JS number.
* Fallible network effects (batch-withdrawal confirmation, the Jupiter
  quote / swap-build / send / confirm steps, each per-recipient
  `sendAndConfirmTransaction`) are oracles passed as `Except`-valued
  parameters; a thrown JS exception is the `.error` branch of an
  `Except String` result.
* SOL quantities in the distribution code are JS numbers computed by
  exact rational formulas (`total * percentage / 100`,
  `Math.floor(x * LAMPORTS_PER_SOL)`); they are modelled as `ℚ` with
  `Int.floor`.
-/

namespace FeeDistributor

/-- Owner program of an account: Token-2022 (fee-extended), classic SPL
Token, or anything else. -/
inductive ProgramId where
  | token2022
  | splToken
  | other
deriving DecidableEq, Repr

/-- The transfer-fee sub-state `getTransferFeeAmount` extracts from a
decoded account (`null` in TS is `Option.none` around this). -/
structure FeeState where
  withheldAmount : Nat
deriving DecidableEq, Repr

/-- A decoded token account: `unpackAccount` result restricted to the
fields the workflow reads. -/
structure TokenAccountState where
  amount : Nat
  feeState : Option FeeState
deriving DecidableEq, Repr

/-- One entry of a `getProgramAccounts` response: pubkey plus decoded
state. -/
structure ProgramAccount where
  pubkey : String
  state : TokenAccountState
deriving DecidableEq, Repr

/-- The on-chain snapshot a single call observes. -/
structure Ledger where
  mintOwner : Option ProgramId
  tokenAccounts : List ProgramAccount
  custodyExists : Bool
deriving DecidableEq, Repr

/-- `const withheldAmount = feeAmount?.withheldAmount || BigInt(0)`. -/
def withheldAmountOf (s : TokenAccountState) : Nat :=
  match s.feeState with
  | some f => f.withheldAmount
  | none => 0

/-- One element of the `feeAnalysis` array built by `checkAvailableFees`
(check_fee_threshold.ts lines 157-174). -/
structure FeeAnalysisEntry where
  accountAddress : String
  withheldAmount : Nat
  isHarvestable : Bool
  balance : Nat
deriving DecidableEq, Repr

/-- The per-account mapping step of `checkAvailableFees`:
`isHarvestable: feeAmount !== null && withheldNumber > threshHold`. -/
def analyzeAccount (threshHold : ℚ) (a : ProgramAccount) : FeeAnalysisEntry :=
  { accountAddress := a.pubkey
    withheldAmount := withheldAmountOf a.state
    isHarvestable :=
      a.state.feeState.isSome && decide (threshHold < (withheldAmountOf a.state : ℚ))
    balance := a.state.amount }

/-- The object `checkAvailableFees` returns. -/
structure ScanReport where
  totalAccounts : Nat
  totalBalance : Nat
  totalWithheldFees : Nat
  harvestableAccounts : Nat
  harvestableFees : Nat
  threshold : ℚ
  accounts : List FeeAnalysisEntry
deriving DecidableEq, Repr

/-- `checkAvailableFees` (check_fee_threshold.ts lines 113-215): resolve
the mint's owner program; a missing mint throws; a non-Token-2022 mint
yields the all-zero report; otherwise every scanned account is analyzed
and the totals are computed. -/
def checkAvailableFees (threshHold : ℚ) (ledger : Ledger) :
    Except String ScanReport :=
  match ledger.mintOwner with
  | none => .error "Mint account not found"
  | some owner =>
    if owner = ProgramId.token2022 then
      let feeAnalysis := ledger.tokenAccounts.map (analyzeAccount threshHold)
      let totalWithheldFees := (feeAnalysis.map (·.withheldAmount)).sum
      let harvestable := feeAnalysis.filter (·.isHarvestable)
      let harvestableFees := (harvestable.map (·.withheldAmount)).sum
      let totalBalance := (feeAnalysis.map (·.balance)).sum
      .ok
        { totalAccounts := ledger.tokenAccounts.length
          totalBalance := totalBalance
          totalWithheldFees := totalWithheldFees
          harvestableAccounts := harvestable.length
          harvestableFees := harvestableFees
          threshold := threshHold
          accounts := feeAnalysis }
    else
      .ok
        { totalAccounts := 0, totalBalance := 0, totalWithheldFees := 0
          harvestableAccounts := 0, harvestableFees := 0
          threshold := threshHold, accounts := [] }

/-- One element of the `accountsWithFees` array built inside
`harvestTokenFees` (lines 258-275) and `harvestSwapAndDistribute`
(lines 347-364). -/
structure HarvestEntry where
  pubkey : String
  withheldAmount : Nat
  hasHarvestableFees : Bool
deriving DecidableEq, Repr

/-- The per-account mapping step of `harvestTokenFees` (lines 259-274):
`hasHarvestableFees: feeAmount !== null && Number(withheldAmount) > threshHold`. -/
def toHarvestEntry (threshHold : ℚ) (a : ProgramAccount) : HarvestEntry :=
  { pubkey := a.pubkey
    withheldAmount := withheldAmountOf a.state
    hasHarvestableFees :=
      a.state.feeState.isSome && decide (threshHold < (withheldAmountOf a.state : ℚ)) }

/-- The per-account mapping step of `harvestSwapAndDistribute`
(lines 348-363), duplicated verbatim in the source from the legacy
pipeline's mapping step. -/
def toHarvestEntrySwap (threshHold : ℚ) (a : ProgramAccount) : HarvestEntry :=
  { pubkey := a.pubkey
    withheldAmount := withheldAmountOf a.state
    hasHarvestableFees :=
      a.state.feeState.isSome && decide (threshHold < (withheldAmountOf a.state : ℚ)) }

/-- `accountsWithFees` of `harvestTokenFees`: map then
`.filter(account => account.hasHarvestableFees)`. -/
def accountsWithFees (threshHold : ℚ) (accounts : List ProgramAccount) :
    List HarvestEntry :=
  (accounts.map (toHarvestEntry threshHold)).filter (·.hasHarvestableFees)

/-- `accountsWithFees` of `harvestSwapAndDistribute`: same map-filter,
built from the swap pipeline's duplicated mapping step. -/
def accountsWithFeesSwap (threshHold : ℚ) (accounts : List ProgramAccount) :
    List HarvestEntry :=
  (accounts.map (toHarvestEntrySwap threshHold)).filter (·.hasHarvestableFees)

/-- Modelled from the spec: `harvestWithheldTokensToAuthority` lives in
src/harvest.ts, which is not among the provided source files; only
its import and call sites are. Per the spec, it submits the single
withdrawal batch naming every kept account as a source and the custody
account as destination, and the custody account is "created lazily on
first use if absent" (the call-site comment likewise says the
destination "will be created during harvest"). The ledger effect is:
the named sources' withheld fees move out (reset to zero) and the
custody account exists afterwards. -/
def harvestWithheldTokensToAuthority (ledger : Ledger) (sources : List String) :
    Ledger :=
  { mintOwner := ledger.mintOwner
    tokenAccounts := ledger.tokenAccounts.map fun a =>
      if sources.contains a.pubkey then
        { a with state := { a.state with feeState := a.state.feeState.map fun _ => ⟨0⟩ } }
      else a
    custodyExists := true }

/-- The value `harvestTokenFees` resolves to, by branch: the
SPL-Token early return, the empty-kept-set return, or a completed
harvest. `harvested` additionally records the withdrawal source list
handed to `harvestWithheldTokensToAuthority` and the ledger after the
confirmed withdrawal. -/
inductive HarvestResult where
  | noFeeMechanism
  | nothingToHarvest
  | harvested (totalFees : Nat) (accountCount : Nat)
      (sources : List String) (ledgerAfter : Ledger)
deriving DecidableEq, Repr

/-- `harvestTokenFees` (check_fee_threshold.ts lines 217-303). A missing
mint throws; a non-Token-2022 mint returns the no-fee-mechanism result;
the call-time account scan is filtered to `accountsWithFees`; an empty
kept set returns the "No fees to harvest" result; otherwise the batch
withdrawal is submitted (`submit` is the confirmation oracle — a
rejection is rethrown) and the totals are reported. -/
def harvestTokenFees (threshHold : ℚ) (submit : Except String Unit)
    (ledger : Ledger) : Except String HarvestResult :=
  match ledger.mintOwner with
  | none => .error "Mint account not found"
  | some owner =>
    if owner = ProgramId.token2022 then
      let kept := accountsWithFees threshHold ledger.tokenAccounts
      if kept.isEmpty then .ok .nothingToHarvest
      else
        match submit with
        | .error e => .error e
        | .ok _ =>
          .ok (.harvested ((kept.map (·.withheldAmount)).sum) kept.length
            (kept.map (·.pubkey))
            (harvestWithheldTokensToAuthority ledger (kept.map (·.pubkey))))
    else .ok .noFeeMechanism

/-- `LAMPORTS_PER_SOL` from @solana/web3.js. -/
def LAMPORTS_PER_SOL : Nat := 1000000000

/-- The oracles behind `swapTokensToSol` (part_000 lines 41-125): the
Jupiter quote fetch (amount in, `outAmount` lamports out; a non-ok HTTP
status or network failure is `.error`), the swap-build fetch together
with payload deserialization, `sendRawTransaction` (signature out) and
`confirmTransaction`. -/
structure SwapEnv where
  quoteResult : Nat → Except String Nat
  swapBuild : Except String Unit
  sendResult : Except String String
  confirmResult : Except String Unit

/-- The value `swapTokensToSol` returns:
`{ success, solReceived?, signature?, error? }`. -/
inductive SwapResult where
  | ok (solReceived : ℚ) (signature : String)
  | failed (error : String)
deriving DecidableEq, Repr

/-- `swapTokensToSol` (part_000 lines 41-125): quote, swap build,
send, confirm in sequence; any failure is caught and reported as
`{ success: false, error }`; on success `solReceived` is
`parseInt(quoteData.outAmount) / LAMPORTS_PER_SOL`, computed from the
quote alone. -/
def swapTokensToSol (env : SwapEnv) (amount : Nat) : SwapResult :=
  match env.quoteResult amount with
  | .error e => .failed e
  | .ok outAmount =>
    match env.swapBuild with
    | .error e => .failed e
    | .ok _ =>
      match env.sendResult with
      | .error e => .failed e
      | .ok signature =>
        match env.confirmResult with
        | .error e => .failed e
        | .ok _ => .ok ((outAmount : ℚ) / (LAMPORTS_PER_SOL : ℚ)) signature

/-- A distribution recipient: `{ address, percentage }`. -/
structure Recipient where
  address : String
  percentage : ℚ
deriving DecidableEq, Repr

/-- One element of the `distributions` array: the recipient paid, the
amount recorded for it, and the confirmed transaction signature. -/
structure DistEntry where
  address : String
  amount : ℚ
  signature : String
deriving DecidableEq, Repr

/-- The value `distributeSol` / `distributeTokens` return, plus a
`warned` flag recording whether the percentage-mismatch console warning
(part_000 lines 140-143) fired. -/
structure DistResult where
  success : Bool
  distributions : List DistEntry
  error : Option String
  warned : Bool
deriving DecidableEq, Repr

/-- `const amount = (totalSolAmount * recipient.percentage) / 100` of
`distributeSol`. -/
def solShare (totalSolAmount : ℚ) (r : Recipient) : ℚ :=
  totalSolAmount * r.percentage / 100

/-- `const lamports = Math.floor(amount * LAMPORTS_PER_SOL)` of
`distributeSol`. -/
def solLamports (totalSolAmount : ℚ) (r : Recipient) : ℤ :=
  Int.floor (solShare totalSolAmount r * (LAMPORTS_PER_SOL : ℚ))

/-- The recipient loop of `distributeSol` (part_000 lines 147-189).
`send` is the per-recipient oracle covering the `PublicKey` parse and
`sendAndConfirmTransaction`; a thrown error is caught and the loop
continues. Returns the `distributions` array paired with the trace of
transfers actually attempted, as (address, lamports) pairs. -/
def distributeSolRun (send : Recipient → ℤ → Except String String)
    (totalSolAmount : ℚ) :
    List Recipient → List DistEntry × List (String × ℤ)
  | [] => ([], [])
  | r :: rs =>
    let amount := solShare totalSolAmount r
    let lamports := solLamports totalSolAmount r
    let rest := distributeSolRun send totalSolAmount rs
    if lamports < 1 then rest
    else
      match send r lamports with
      | .ok signature =>
        ({ address := r.address, amount := amount, signature := signature } :: rest.1,
          (r.address, lamports) :: rest.2)
      | .error _ => (rest.1, (r.address, lamports) :: rest.2)

/-- `distributeSol` (part_000 lines 130-205): warn when the percentages
sum away from 100 by more than 0.01, run the recipient loop, report
`success = distributions.length > 0`. -/
def distributeSol (send : Recipient → ℤ → Except String String)
    (totalSolAmount : ℚ) (recipients : List Recipient) : DistResult :=
  let totalPercentage := (recipients.map (·.percentage)).sum
  let run := distributeSolRun send totalSolAmount recipients
  { success := decide (0 < run.1.length)
    distributions := run.1
    error := none
    warned := decide ((1 : ℚ)/100 < |totalPercentage - 100|) }

/-- `const amount = Math.floor((totalTokenAmount * recipient.percentage) / 100)`
of `distributeTokens`. -/
def tokenShare (totalTokenAmount : ℚ) (r : Recipient) : ℤ :=
  Int.floor (totalTokenAmount * r.percentage / 100)

/-- The recipient loop of `distributeTokens` (part_000 lines 242-314).
`send` covers the recipient associated-token-account resolution /
creation and the transfer submission; a thrown error is caught and the
loop continues. Returns the `distributions` array paired with the
attempted-transfer trace. -/
def distributeTokensRun (send : Recipient → ℤ → Except String String)
    (totalTokenAmount : ℚ) :
    List Recipient → List DistEntry × List (String × ℤ)
  | [] => ([], [])
  | r :: rs =>
    let amount := tokenShare totalTokenAmount r
    let rest := distributeTokensRun send totalTokenAmount rs
    if amount < 1 then rest
    else
      match send r amount with
      | .ok signature =>
        ({ address := r.address, amount := (amount : ℚ), signature := signature } :: rest.1,
          (r.address, amount) :: rest.2)
      | .error _ => (rest.1, (r.address, amount) :: rest.2)

/-- `distributeTokens` (part_000 lines 210-330): a missing mint is
caught by the outer handler and reported as a failure; otherwise the
recipient loop runs and `success = distributions.length > 0`.
`distributeTokens` performs no percentage validation (only
`distributeSol` does), so `warned` is always false here. -/
def distributeTokens (mintOwner : Option ProgramId)
    (send : Recipient → ℤ → Except String String)
    (totalTokenAmount : ℚ) (recipients : List Recipient) : DistResult :=
  match mintOwner with
  | none =>
    { success := false, distributions := [], error := some "Token mint not found"
      warned := false }
  | some _ =>
    let run := distributeTokensRun send totalTokenAmount recipients
    { success := decide (0 < run.1.length)
      distributions := run.1
      error := none
      warned := false }

/-- The value `swapAndDistribute` returns. -/
inductive SDResult where
  | ok (solReceived : ℚ) (swapSignature : String) (dist : DistResult)
  | failed (error : String)
deriving DecidableEq, Repr

/-- `swapAndDistribute` (part_000 lines 335-382): swap the harvested
tokens to SOL, then distribute `swapResult.solReceived` across the
recipients; a failed swap or a distribution reporting no successful
transfer is rethrown and caught as the workflow's failure result. -/
def swapAndDistribute (swapEnv : SwapEnv)
    (send : Recipient → ℤ → Except String String)
    (tokenAmount : Nat) (recipients : List Recipient) : SDResult :=
  match swapTokensToSol swapEnv tokenAmount with
  | .failed e => .failed ("Swap failed: " ++ e)
  | .ok solReceived swapSignature =>
    let distributionResult := distributeSol send solReceived recipients
    if distributionResult.success then
      .ok solReceived swapSignature distributionResult
    else .failed "Distribution failed"

/-- The environment-driven configuration `harvestSwapAndDistribute`
reads: the `ENABLE_TEST_DISTRIBUTION` flag, the `TEST_WALLET_*`
recipients (2.5 percent each in the source) and the
`RECIPIENT_WALLET_*` recipients. -/
structure HSDConfig where
  enableTestDistribution : Bool
  testRecipients : List Recipient
  recipients : List Recipient

/-- The value `harvestSwapAndDistribute` resolves to, by branch:
SPL-Token early return; the test distribution run in place of an
empty-kept-set return (succeeding or failing); the plain
"No fees to harvest" return; a harvest followed by a successful or a
failed swap-and-distribution; or a harvest of a zero total (possible
only with a negative threshold), which skips the swap. The harvesting
constructors record the withdrawal source list and the post-withdrawal
ledger. -/
inductive HSDResult where
  | noFeeMechanism
  | testDistributionDone (dist : DistResult)
  | testDistributionFailed (dist : DistResult)
  | nothingToHarvest
  | swapDistOk (totalFees accountCount : Nat) (sources : List String)
      (ledgerAfter : Ledger) (sd : SDResult)
  | swapDistFailed (totalFees accountCount : Nat) (sources : List String)
      (ledgerAfter : Ledger) (error : String)
  | harvestedOnly (totalFees accountCount : Nat) (sources : List String)
      (ledgerAfter : Ledger)
deriving DecidableEq, Repr

/-- The withdrawal source accounts a `harvestSwapAndDistribute` result
submitted to the network: empty for every branch that did not reach
`harvestWithheldTokensToAuthority`. -/
def HSDResult.withdrawalSources : HSDResult → List String
  | .swapDistOk _ _ sources _ _ => sources
  | .swapDistFailed _ _ sources _ _ => sources
  | .harvestedOnly _ _ sources _ => sources
  | _ => []

/-- The post-withdrawal ledger of a `harvestSwapAndDistribute` result,
when the branch reached `harvestWithheldTokensToAuthority`. -/
def HSDResult.ledgerAfterOf : HSDResult → Option Ledger
  | .swapDistOk _ _ _ ledgerAfter _ => some ledgerAfter
  | .swapDistFailed _ _ _ ledgerAfter _ => some ledgerAfter
  | .harvestedOnly _ _ _ ledgerAfter => some ledgerAfter
  | _ => none

/-- `harvestSwapAndDistribute` (check_fee_threshold.ts lines 306-489).
A missing mint throws; a non-Token-2022 mint returns early; the
call-time scan is filtered; an empty kept set either runs the 0.002-SOL
test distribution (when `ENABLE_TEST_DISTRIBUTION` is set) or returns
"No fees to harvest"; otherwise the withdrawal batch is submitted
(confirmation rejection rethrows) and, when the harvested total is
positive, `swapAndDistribute` runs on it with 3 percent slippage. -/
def harvestSwapAndDistribute (threshHold : ℚ) (cfg : HSDConfig)
    (submit : Except String Unit) (swapEnv : SwapEnv)
    (send : Recipient → ℤ → Except String String)
    (ledger : Ledger) : Except String HSDResult :=
  match ledger.mintOwner with
  | none => .error "Mint account not found"
  | some owner =>
    if owner = ProgramId.token2022 then
      let kept := accountsWithFeesSwap threshHold ledger.tokenAccounts
      if kept.isEmpty then
        if cfg.enableTestDistribution then
          let distributionResult :=
            distributeSol send ((2 : ℚ)/1000) cfg.testRecipients
          if distributionResult.success then
            .ok (.testDistributionDone distributionResult)
          else .ok (.testDistributionFailed distributionResult)
        else .ok .nothingToHarvest
      else
        let totalFees := (kept.map (·.withheldAmount)).sum
        let sources := kept.map (·.pubkey)
        match submit with
        | .error e => .error e
        | .ok _ =>
          let ledgerAfter := harvestWithheldTokensToAuthority ledger sources
          if 0 < totalFees then
            match swapAndDistribute swapEnv send totalFees cfg.recipients with
            | .ok solReceived swapSignature dist =>
              .ok (.swapDistOk totalFees kept.length sources ledgerAfter
                (.ok solReceived swapSignature dist))
            | .failed e =>
              .ok (.swapDistFailed totalFees kept.length sources ledgerAfter e)
          else .ok (.harvestedOnly totalFees kept.length sources ledgerAfter)
    else .ok .noFeeMechanism

/-- One workflow cycle of the orchestrator
`startAutomaticHarvestingWithSwap`: `await checkAvailableFees(mint)`
then `await harvestSwapAndDistribute(mint)`, either failure
propagating. -/
def runCycle (threshHold : ℚ) (cfg : HSDConfig) (submit : Except String Unit)
    (swapEnv : SwapEnv) (send : Recipient → ℤ → Except String String)
    (ledger : Ledger) : Except String (ScanReport × HSDResult) := do
  let scan ← checkAvailableFees threshHold ledger
  let result ← harvestSwapAndDistribute threshHold cfg submit swapEnv send ledger
  return (scan, result)

/-- What one scheduled tick observably did. -/
inductive TickOutcome where
  | completed (scan : ScanReport) (result : HSDResult)
  | caught (error : String)
deriving DecidableEq, Repr

/-- The `setInterval` callback of `startAutomaticHarvestingWithSwap`
(lines 563-571): the cycle runs inside try/catch, so a failure is
logged and absorbed. -/
def scheduledTick (threshHold : ℚ) (cfg : HSDConfig) (submit : Except String Unit)
    (swapEnv : SwapEnv) (send : Recipient → ℤ → Except String String)
    (ledger : Ledger) : TickOutcome :=
  match runCycle threshHold cfg submit swapEnv send ledger with
  | .ok (scan, result) => .completed scan result
  | .error e => .caught e

/-- `startAutomaticHarvestingWithSwap` (lines 552-572): the initial
cycle runs immediately and is NOT wrapped in try/catch — its failure
propagates out of the function — then each scheduled tick runs
guarded. The scheduler is modelled on the finite list of per-tick
ledger snapshots it will observe. -/
def startAutomaticHarvestingWithSwap (threshHold : ℚ) (cfg : HSDConfig)
    (submit : Except String Unit) (swapEnv : SwapEnv)
    (send : Recipient → ℤ → Except String String)
    (ledger : Ledger) (tickLedgers : List Ledger) :
    Except String ((ScanReport × HSDResult) × List TickOutcome) :=
  match runCycle threshHold cfg submit swapEnv send ledger with
  | .error e => .error e
  | .ok r =>
    .ok (r, tickLedgers.map (scheduledTick threshHold cfg submit swapEnv send))

/-! ### Shared lemmas -/

/-- Decidable equality for `Except`, used to evaluate concrete results. -/
instance {α β : Type} [DecidableEq α] [DecidableEq β] : DecidableEq (Except α β) :=
  fun a b =>
    match a, b with
    | .error x, .error y =>
      if h : x = y then .isTrue (by rw [h]) else .isFalse (by simp [h])
    | .ok x, .ok y =>
      if h : x = y then .isTrue (by rw [h]) else .isFalse (by simp [h])
    | .error _, .ok _ => .isFalse (by simp)
    | .ok _, .error _ => .isFalse (by simp)

/-- The two duplicated harvest mapping steps are one function. -/
theorem toHarvestEntrySwap_eq (threshHold : ℚ) (a : ProgramAccount) :
    toHarvestEntrySwap threshHold a = toHarvestEntry threshHold a := rfl

/-- The two duplicated kept-set computations agree. -/
theorem accountsWithFeesSwap_eq (threshHold : ℚ) (accounts : List ProgramAccount) :
    accountsWithFeesSwap threshHold accounts = accountsWithFees threshHold accounts := rfl

/-- Membership in the kept set: an entry comes from a scanned account
whose fee sub-state is present and whose withheld amount is strictly
above the threshold. -/
theorem mem_accountsWithFees {threshHold : ℚ} {accounts : List ProgramAccount}
    {e : HarvestEntry} (h : e ∈ accountsWithFees threshHold accounts) :
    ∃ a ∈ accounts, e = toHarvestEntry threshHold a ∧
      a.state.feeState.isSome = true ∧
      threshHold < (withheldAmountOf a.state : ℚ) := by
  simp only [accountsWithFees, List.mem_filter, List.mem_map] at h
  obtain ⟨⟨a, ha, rfl⟩, hh⟩ := h
  simp only [toHarvestEntry, Bool.and_eq_true, decide_eq_true_eq] at hh
  exact ⟨a, ha, rfl, hh.1, hh.2⟩

/-- Inversion of a completed `harvestTokenFees` call: the mint was
Token-2022, the kept set was the call-time filter of the scan and was
nonempty, and the reported values and withdrawal sources are exactly
its totals, count and addresses. -/
theorem harvestTokenFees_harvested_inv {threshHold : ℚ}
    {submit : Except String Unit} {ledger : Ledger}
    {tf n : Nat} {srcs : List String} {l' : Ledger}
    (h : harvestTokenFees threshHold submit ledger =
      .ok (.harvested tf n srcs l')) :
    ledger.mintOwner = some ProgramId.token2022 ∧
      srcs = (accountsWithFees threshHold ledger.tokenAccounts).map (·.pubkey) ∧
      tf = ((accountsWithFees threshHold ledger.tokenAccounts).map (·.withheldAmount)).sum ∧
      n = (accountsWithFees threshHold ledger.tokenAccounts).length ∧
      l' = harvestWithheldTokensToAuthority ledger srcs := by
  unfold harvestTokenFees at h
  simp only [] at h
  split at h
  · exact Except.noConfusion h
  next owner heq =>
    split at h
    · next how =>
      subst how
      split at h
      · simp at h
      · split at h
        · exact Except.noConfusion h
        · simp only [Except.ok.injEq, HarvestResult.harvested.injEq] at h
          obtain ⟨h1, h2, h3, h4⟩ := h
          subst h1; subst h2; subst h3; subst h4
          exact ⟨heq, rfl, rfl, rfl, rfl⟩
    · simp at h

/-- Inversion of a `harvestSwapAndDistribute` result: either the branch
submitted no withdrawal (empty source list, no post-harvest ledger), or
the mint was Token-2022 and the withdrawal named exactly the call-time
kept set, with the post-harvest ledger produced by
`harvestWithheldTokensToAuthority` on those sources. -/
theorem harvestSwapAndDistribute_ok_inv {threshHold : ℚ} {cfg : HSDConfig}
    {submit : Except String Unit} {swapEnv : SwapEnv}
    {send : Recipient → ℤ → Except String String} {ledger : Ledger}
    {r : HSDResult}
    (h : harvestSwapAndDistribute threshHold cfg submit swapEnv send ledger = .ok r) :
    (r.withdrawalSources = [] ∧ r.ledgerAfterOf = none) ∨
      (ledger.mintOwner = some ProgramId.token2022 ∧
        r.withdrawalSources =
          (accountsWithFeesSwap threshHold ledger.tokenAccounts).map (·.pubkey) ∧
        r.ledgerAfterOf =
          some (harvestWithheldTokensToAuthority ledger r.withdrawalSources)) := by
  unfold harvestSwapAndDistribute at h
  simp only [] at h
  split at h
  · exact Except.noConfusion h
  next owner heq =>
    split at h
    · next how =>
      subst how
      split at h
      · split at h
        · split at h
          · simp only [Except.ok.injEq] at h
            subst h
            exact Or.inl ⟨rfl, rfl⟩
          · simp only [Except.ok.injEq] at h
            subst h
            exact Or.inl ⟨rfl, rfl⟩
        · simp only [Except.ok.injEq] at h
          subst h
          exact Or.inl ⟨rfl, rfl⟩
      · split at h
        · exact Except.noConfusion h
        · split at h
          · split at h
            · simp only [Except.ok.injEq] at h
              subst h
              exact Or.inr ⟨heq, rfl, rfl⟩
            · simp only [Except.ok.injEq] at h
              subst h
              exact Or.inr ⟨heq, rfl, rfl⟩
          · simp only [Except.ok.injEq] at h
            subst h
            exact Or.inr ⟨heq, rfl, rfl⟩
    · simp only [Except.ok.injEq] at h
      subst h
      exact Or.inl ⟨rfl, rfl⟩

/-! ### Distribution loop characterizations -/

theorem distributeSolRun_fst (send : Recipient → ℤ → Except String String)
    (total : ℚ) (rs : List Recipient) :
    (distributeSolRun send total rs).1 = rs.filterMap fun r =>
      if solLamports total r < 1 then none
      else
        match send r (solLamports total r) with
        | .ok sig => some { address := r.address, amount := solShare total r, signature := sig }
        | .error _ => none := by
  induction rs with
  | nil => rfl
  | cons r rs ih =>
    by_cases hl : solLamports total r < 1
    · simp [distributeSolRun, hl, ih]
    · cases hs : send r (solLamports total r) with
      | ok sig => simp [distributeSolRun, hl, hs, ih]
      | error e => simp [distributeSolRun, hl, hs, ih]

theorem distributeSolRun_snd (send : Recipient → ℤ → Except String String)
    (total : ℚ) (rs : List Recipient) :
    (distributeSolRun send total rs).2 =
      (rs.filter fun r => decide (1 ≤ solLamports total r)).map
        fun r => (r.address, solLamports total r) := by
  induction rs with
  | nil => rfl
  | cons r rs ih =>
    by_cases hl : solLamports total r < 1
    · have h1 : ¬(1 ≤ solLamports total r) := by omega
      simp [distributeSolRun, hl, ih, List.filter_cons, h1]
    · have h1 : 1 ≤ solLamports total r := by omega
      cases hs : send r (solLamports total r) with
      | ok sig => simp [distributeSolRun, hl, hs, ih, List.filter_cons, h1]
      | error e => simp [distributeSolRun, hl, hs, ih, List.filter_cons, h1]

theorem distributeTokensRun_fst (send : Recipient → ℤ → Except String String)
    (total : ℚ) (rs : List Recipient) :
    (distributeTokensRun send total rs).1 = rs.filterMap fun r =>
      if tokenShare total r < 1 then none
      else
        match send r (tokenShare total r) with
        | .ok sig =>
          some { address := r.address, amount := (tokenShare total r : ℚ), signature := sig }
        | .error _ => none := by
  induction rs with
  | nil => rfl
  | cons r rs ih =>
    by_cases hl : tokenShare total r < 1
    · simp [distributeTokensRun, hl, ih]
    · cases hs : send r (tokenShare total r) with
      | ok sig => simp [distributeTokensRun, hl, hs, ih]
      | error e => simp [distributeTokensRun, hl, hs, ih]

theorem distributeTokensRun_snd (send : Recipient → ℤ → Except String String)
    (total : ℚ) (rs : List Recipient) :
    (distributeTokensRun send total rs).2 =
      (rs.filter fun r => decide (1 ≤ tokenShare total r)).map
        fun r => (r.address, tokenShare total r) := by
  induction rs with
  | nil => rfl
  | cons r rs ih =>
    by_cases hl : tokenShare total r < 1
    · have h1 : ¬(1 ≤ tokenShare total r) := by omega
      simp [distributeTokensRun, hl, ih, List.filter_cons, h1]
    · have h1 : 1 ≤ tokenShare total r := by omega
      cases hs : send r (tokenShare total r) with
      | ok sig => simp [distributeTokensRun, hl, hs, ih, List.filter_cons, h1]
      | error e => simp [distributeTokensRun, hl, hs, ih, List.filter_cons, h1]

/-! ### Concrete fixtures used by witnesses and counterexamples -/

/-- A per-recipient send oracle whose every transfer confirms. -/
def sendAllOk : Recipient → ℤ → Except String String := fun _ _ => .ok "sig"

/-- A swap environment whose every step succeeds, quoting 1000000
lamports out for any input amount. -/
def swapEnvOk : SwapEnv :=
  { quoteResult := fun _ => .ok 1000000
    swapBuild := .ok ()
    sendResult := .ok "swapsig"
    confirmResult := .ok () }

/-- A swap environment whose quote request fails. -/
def swapEnvQuoteDown : SwapEnv :=
  { quoteResult := fun _ => .error "Quote API error: 500"
    swapBuild := .ok ()
    sendResult := .ok "swapsig"
    confirmResult := .ok () }

/-- A Token-2022 ledger holding one account with 5 withheld fee units. -/
def ledgerOneAccount : Ledger :=
  { mintOwner := some .token2022
    tokenAccounts := [{ pubkey := "acct1", state := { amount := 10, feeState := some ⟨5⟩ } }]
    custodyExists := false }

/-- `ledgerOneAccount` after the withdrawal batch. -/
def ledgerOneAccountAfter : Ledger :=
  { mintOwner := some .token2022
    tokenAccounts := [{ pubkey := "acct1", state := { amount := 10, feeState := some ⟨0⟩ } }]
    custodyExists := true }

/-- A Token-2022 ledger with no token accounts at all. -/
def ledgerEmpty : Ledger :=
  { mintOwner := some .token2022, tokenAccounts := [], custodyExists := false }

/-- A snapshot in which the mint account does not exist. -/
def ledgerNoMint : Ledger :=
  { mintOwner := none, tokenAccounts := [], custodyExists := false }

/-- Configuration with the test distribution enabled and the source's
two 2.5-percent recipients. -/
def cfgTestOn : HSDConfig :=
  { enableTestDistribution := true
    testRecipients := [⟨"w1", 5/2⟩, ⟨"w2", 5/2⟩]
    recipients := [⟨"w1", 5/2⟩, ⟨"w2", 5/2⟩] }

/-- Configuration with the test distribution disabled. -/
def cfgTestOff : HSDConfig :=
  { enableTestDistribution := false
    testRecipients := []
    recipients := [⟨"w1", 5/2⟩, ⟨"w2", 5/2⟩] }

/-! ### Claims -/

/-- Claim C2: an account scanned under the fee-extended program is
marked harvestable iff its fee sub-state exists and its withheld amount
strictly exceeds the configured threshold; in particular a withheld
amount equal to the threshold is not harvestable. -/
theorem claim_C2_scan_harvestable_iff (threshHold : ℚ) (a : ProgramAccount) :
    ((analyzeAccount threshHold a).isHarvestable = true ↔
      (∃ f, a.state.feeState = some f ∧ threshHold < (f.withheldAmount : ℚ)))
    ∧ ((withheldAmountOf a.state : ℚ) = threshHold →
      (analyzeAccount threshHold a).isHarvestable = false) := by
  constructor
  · cases hf : a.state.feeState with
    | none => simp [analyzeAccount, withheldAmountOf, hf]
    | some f => simp [analyzeAccount, withheldAmountOf, hf]
  · intro he
    simp only [analyzeAccount, he, lt_irrefl, decide_False, Bool.and_false]

/-- Claim C10: the harvestability predicate is computed identically at
its three duplication sites (scan, legacy harvest, swap-enabled
harvest); consequently, on one ledger snapshot, both harvest pipelines
keep exactly the accounts the scan reports harvestable — same
addresses, same withheld sum, same count. -/
theorem claim_C10_predicate_agreement (threshHold : ℚ)
    (accounts : List ProgramAccount) (custody : Bool) :
    (∀ a, (toHarvestEntry threshHold a).hasHarvestableFees =
        (analyzeAccount threshHold a).isHarvestable)
    ∧ (∀ a, toHarvestEntrySwap threshHold a = toHarvestEntry threshHold a)
    ∧ accountsWithFeesSwap threshHold accounts = accountsWithFees threshHold accounts
    ∧ (accountsWithFees threshHold accounts).map (·.pubkey) =
        ((accounts.map (analyzeAccount threshHold)).filter (·.isHarvestable)).map
          (·.accountAddress)
    ∧ (∃ report,
        checkAvailableFees threshHold ⟨some ProgramId.token2022, accounts, custody⟩ =
          .ok report
        ∧ report.harvestableFees =
            ((accountsWithFees threshHold accounts).map (·.withheldAmount)).sum
        ∧ report.harvestableAccounts = (accountsWithFees threshHold accounts).length
        ∧ (report.accounts.filter (·.isHarvestable)).map (·.accountAddress) =
            (accountsWithFees threshHold accounts).map (·.pubkey)) := by
  have hmap : (accountsWithFees threshHold accounts).map (·.pubkey) =
      ((accounts.map (analyzeAccount threshHold)).filter (·.isHarvestable)).map
        (·.accountAddress) := by
    rw [accountsWithFees, List.filter_map, List.filter_map, List.map_map, List.map_map]
    rfl
  have hsum : ((accountsWithFees threshHold accounts).map (·.withheldAmount)).sum =
      (((accounts.map (analyzeAccount threshHold)).filter (·.isHarvestable)).map
        (·.withheldAmount)).sum := by
    rw [accountsWithFees, List.filter_map, List.filter_map, List.map_map, List.map_map]
    rfl
  have hlen : (accountsWithFees threshHold accounts).length =
      ((accounts.map (analyzeAccount threshHold)).filter (·.isHarvestable)).length := by
    rw [accountsWithFees, List.filter_map, List.filter_map, List.length_map, List.length_map]
    rfl
  refine ⟨fun _ => rfl, fun _ => rfl, rfl, hmap, ?_⟩
  refine ⟨{ totalAccounts := accounts.length
            totalBalance := ((accounts.map (analyzeAccount threshHold)).map (·.balance)).sum
            totalWithheldFees :=
              ((accounts.map (analyzeAccount threshHold)).map (·.withheldAmount)).sum
            harvestableAccounts :=
              ((accounts.map (analyzeAccount threshHold)).filter (·.isHarvestable)).length
            harvestableFees :=
              (((accounts.map (analyzeAccount threshHold)).filter
                (·.isHarvestable)).map (·.withheldAmount)).sum
            threshold := threshHold
            accounts := accounts.map (analyzeAccount threshHold) }, rfl, ?_, ?_, ?_⟩
  · exact hsum.symm
  · exact hlen.symm
  · exact hmap.symm

/-- Claim C1: with a non-negative configured threshold, every account
either harvest pipeline names as a withdrawal source was re-read from
the call-time snapshot and found to carry a present fee sub-state whose
withheld amount strictly exceeds the threshold — in particular no
source account's call-time withheld amount is zero, whatever an earlier
scan said. -/
theorem claim_C1_withdrawal_sources_reverified (threshHold : ℚ)
    (submit : Except String Unit) (cfg : HSDConfig) (swapEnv : SwapEnv)
    (send : Recipient → ℤ → Except String String) (ledger : Ledger)
    (tf n : Nat) (srcs : List String) (l' : Ledger) (r : HSDResult)
    (ht : 0 ≤ threshHold)
    (h1 : harvestTokenFees threshHold submit ledger = .ok (.harvested tf n srcs l'))
    (h2 : harvestSwapAndDistribute threshHold cfg submit swapEnv send ledger = .ok r) :
    (∀ addr ∈ srcs, ∃ a ∈ ledger.tokenAccounts, a.pubkey = addr ∧
        a.state.feeState.isSome = true ∧
        threshHold < (withheldAmountOf a.state : ℚ) ∧ withheldAmountOf a.state ≠ 0)
    ∧ (∀ addr ∈ r.withdrawalSources, ∃ a ∈ ledger.tokenAccounts, a.pubkey = addr ∧
        a.state.feeState.isSome = true ∧
        threshHold < (withheldAmountOf a.state : ℚ) ∧ withheldAmountOf a.state ≠ 0) := by
  have key : ∀ addr ∈ (accountsWithFees threshHold ledger.tokenAccounts).map (·.pubkey),
      ∃ a ∈ ledger.tokenAccounts, a.pubkey = addr ∧
        a.state.feeState.isSome = true ∧
        threshHold < (withheldAmountOf a.state : ℚ) ∧ withheldAmountOf a.state ≠ 0 := by
    intro addr haddr
    simp only [List.mem_map] at haddr
    obtain ⟨e, he, rfl⟩ := haddr
    obtain ⟨a, ha, rfl, hsome, hgt⟩ := mem_accountsWithFees he
    refine ⟨a, ha, rfl, hsome, hgt, ?_⟩
    intro h0
    rw [h0] at hgt
    simp only [Nat.cast_zero] at hgt
    exact absurd (lt_of_le_of_lt ht hgt) (lt_irrefl 0)
  constructor
  · obtain ⟨-, hsrcs, -, -, -⟩ := harvestTokenFees_harvested_inv h1
    rw [hsrcs]
    exact key
  · rcases harvestSwapAndDistribute_ok_inv h2 with ⟨hempty, -⟩ | ⟨-, hsrcs, -⟩
    · rw [hempty]
      intro addr haddr
      exact absurd haddr (List.not_mem_nil addr)
    · rw [hsrcs, accountsWithFeesSwap_eq]
      exact key

/-- Witness for C1 at a concrete input: threshold 0, one scanned account
with withheld amount 5; the legacy pipeline harvests it and the
swap-enabled pipeline (with a failing quote service) names the same
single source. -/
theorem claim_C1_witness :
    (0 : ℚ) ≤ 0
    ∧ harvestTokenFees 0 (.ok ()) ledgerOneAccount =
        .ok (.harvested 5 1 ["acct1"] ledgerOneAccountAfter)
    ∧ harvestSwapAndDistribute 0 cfgTestOff (.ok ()) swapEnvQuoteDown sendAllOk
        ledgerOneAccount =
        .ok (.swapDistFailed 5 1 ["acct1"] ledgerOneAccountAfter
          "Swap failed: Quote API error: 500")
    ∧ ((∀ addr ∈ ["acct1"], ∃ a ∈ ledgerOneAccount.tokenAccounts, a.pubkey = addr ∧
          a.state.feeState.isSome = true ∧
          (0 : ℚ) < (withheldAmountOf a.state : ℚ) ∧ withheldAmountOf a.state ≠ 0)
      ∧ (∀ addr ∈ (HSDResult.swapDistFailed 5 1 ["acct1"] ledgerOneAccountAfter
            "Swap failed: Quote API error: 500").withdrawalSources,
          ∃ a ∈ ledgerOneAccount.tokenAccounts, a.pubkey = addr ∧
            a.state.feeState.isSome = true ∧
            (0 : ℚ) < (withheldAmountOf a.state : ℚ) ∧ withheldAmountOf a.state ≠ 0)) :=
  ⟨le_refl 0, rfl, rfl,
    claim_C1_withdrawal_sources_reverified 0 (.ok ()) cfgTestOff swapEnvQuoteDown
      sendAllOk ledgerOneAccount 5 1 ["acct1"] ledgerOneAccountAfter
      (.swapDistFailed 5 1 ["acct1"] ledgerOneAccountAfter
        "Swap failed: Quote API error: 500")
      (le_refl 0) rfl rfl⟩

/-- Claim C9 (withdrawal behavior modelled from the spec, since
src/harvest.ts is not among the provided sources): after any completed
harvest, by either pipeline, the custody destination account exists —
it is created during the harvest when absent. -/
theorem claim_C9_custody_exists (threshHold : ℚ) (submit : Except String Unit)
    (cfg : HSDConfig) (swapEnv : SwapEnv)
    (send : Recipient → ℤ → Except String String) (ledger : Ledger)
    (tf n : Nat) (srcs : List String) (l' : Ledger)
    (h : harvestTokenFees threshHold submit ledger = .ok (.harvested tf n srcs l')) :
    l'.custodyExists = true
    ∧ (∀ r l2, harvestSwapAndDistribute threshHold cfg submit swapEnv send ledger = .ok r →
        r.ledgerAfterOf = some l2 → l2.custodyExists = true) := by
  constructor
  · obtain ⟨-, -, -, -, hl⟩ := harvestTokenFees_harvested_inv h
    rw [hl]
    rfl
  · intro r l2 h2 hla
    rcases harvestSwapAndDistribute_ok_inv h2 with ⟨-, hnone⟩ | ⟨-, -, hsome⟩
    · rw [hnone] at hla
      exact Option.noConfusion hla
    · rw [hsome] at hla
      obtain rfl := (Option.some.injEq _ _).mp hla
      rfl

/-- Witness for C9 at a concrete input: harvesting the one-account
ledger leaves an existing custody account. -/
theorem claim_C9_witness :
    harvestTokenFees 0 (.ok ()) ledgerOneAccount =
      .ok (.harvested 5 1 ["acct1"] ledgerOneAccountAfter)
    ∧ (ledgerOneAccountAfter.custodyExists = true
      ∧ (∀ r l2, harvestSwapAndDistribute 0 cfgTestOff (.ok ()) swapEnvQuoteDown
            sendAllOk ledgerOneAccount = .ok r →
          r.ledgerAfterOf = some l2 → l2.custodyExists = true)) :=
  ⟨rfl, claim_C9_custody_exists 0 (.ok ()) cfgTestOff swapEnvQuoteDown sendAllOk
    ledgerOneAccount 5 1 ["acct1"] ledgerOneAccountAfter rfl⟩

/-- Counterexample to C6 as stated: on a Token-2022 mint with no
harvestable account, with `ENABLE_TEST_DISTRIBUTION` set, the
swap-enabled pipeline does not return the "No fees to harvest" result —
it runs the 0.002-SOL test distribution and returns that result
instead. -/
theorem claim_C6_counterexample :
    harvestSwapAndDistribute 0 cfgTestOn (.ok ()) swapEnvQuoteDown sendAllOk ledgerEmpty =
      .ok (.testDistributionDone
        { success := true
          distributions := [⟨"w1", 1/20000, "sig"⟩, ⟨"w2", 1/20000, "sig"⟩]
          error := none
          warned := true })
    ∧ harvestSwapAndDistribute 0 cfgTestOn (.ok ()) swapEnvQuoteDown sendAllOk ledgerEmpty ≠
        .ok .nothingToHarvest := by
  have h : harvestSwapAndDistribute 0 cfgTestOn (.ok ()) swapEnvQuoteDown sendAllOk
      ledgerEmpty =
      .ok (.testDistributionDone
        { success := true
          distributions := [⟨"w1", 1/20000, "sig"⟩, ⟨"w2", 1/20000, "sig"⟩]
          error := none
          warned := true }) := by
    simp only [harvestSwapAndDistribute, ledgerEmpty, cfgTestOn, accountsWithFeesSwap,
      distributeSol, distributeSolRun, solShare, solLamports, sendAllOk,
      LAMPORTS_PER_SOL]
    norm_num
  refine ⟨h, ?_⟩
  rw [h]
  intro hcontra
  simp at hcontra

/-- Claim C6 amended: on a Token-2022 mint whose call-time kept set is
empty, neither pipeline throws and neither submits a withdrawal; the
legacy pipeline returns the "No fees to harvest" result, and the
swap-enabled pipeline does so too unless the test-distribution flag is
set, in which case it instead runs the 0.002-SOL test distribution and
returns that outcome. -/
theorem claim_C6_amended (threshHold : ℚ) (cfg : HSDConfig)
    (submit : Except String Unit) (swapEnv : SwapEnv)
    (send : Recipient → ℤ → Except String String) (ledger : Ledger)
    (hm : ledger.mintOwner = some ProgramId.token2022)
    (hk : accountsWithFees threshHold ledger.tokenAccounts = []) :
    harvestTokenFees threshHold submit ledger = .ok .nothingToHarvest
    ∧ (∃ r, harvestSwapAndDistribute threshHold cfg submit swapEnv send ledger = .ok r
        ∧ r.withdrawalSources = []
        ∧ (cfg.enableTestDistribution = false → r = .nothingToHarvest)
        ∧ (cfg.enableTestDistribution = true →
            r = .testDistributionDone
                (distributeSol send ((2 : ℚ)/1000) cfg.testRecipients)
            ∨ r = .testDistributionFailed
                (distributeSol send ((2 : ℚ)/1000) cfg.testRecipients))) := by
  have hk2 : accountsWithFeesSwap threshHold ledger.tokenAccounts = [] := by
    rw [accountsWithFeesSwap_eq]; exact hk
  constructor
  · unfold harvestTokenFees
    rw [hm]
    simp only [if_pos rfl, hk, List.isEmpty_nil, if_true]
  · unfold harvestSwapAndDistribute
    rw [hm]
    simp only [if_pos rfl, hk2, List.isEmpty_nil, if_true]
    cases hflag : cfg.enableTestDistribution with
    | false =>
      refine ⟨.nothingToHarvest, ?_, rfl, fun _ => rfl, fun hcontra => ?_⟩
      · simp
      · exact absurd hcontra (by simp)
    | true =>
      cases hs : (distributeSol send ((2 : ℚ)/1000) cfg.testRecipients).success with
      | true =>
        refine ⟨.testDistributionDone (distributeSol send ((2 : ℚ)/1000) cfg.testRecipients),
          ?_, rfl, fun hcontra => absurd hcontra (by simp), fun _ => Or.inl rfl⟩
        simp [hs]
      | false =>
        refine ⟨.testDistributionFailed (distributeSol send ((2 : ℚ)/1000) cfg.testRecipients),
          ?_, rfl, fun hcontra => absurd hcontra (by simp), fun _ => Or.inr rfl⟩
        simp [hs]

/-- Witness for the amended C6 at a concrete input: the empty Token-2022
ledger with the test distribution disabled. -/
theorem claim_C6_witness :
    ledgerEmpty.mintOwner = some ProgramId.token2022
    ∧ accountsWithFees 0 ledgerEmpty.tokenAccounts = []
    ∧ (harvestTokenFees 0 (.ok ()) ledgerEmpty = .ok .nothingToHarvest
      ∧ (∃ r, harvestSwapAndDistribute 0 cfgTestOff (.ok ()) swapEnvQuoteDown sendAllOk
            ledgerEmpty = .ok r
          ∧ r.withdrawalSources = []
          ∧ (cfgTestOff.enableTestDistribution = false → r = .nothingToHarvest)
          ∧ (cfgTestOff.enableTestDistribution = true →
              r = .testDistributionDone
                  (distributeSol sendAllOk ((2 : ℚ)/1000) cfgTestOff.testRecipients)
              ∨ r = .testDistributionFailed
                  (distributeSol sendAllOk ((2 : ℚ)/1000) cfgTestOff.testRecipients)))) :=
  ⟨rfl, rfl, claim_C6_amended 0 cfgTestOff (.ok ()) swapEnvQuoteDown sendAllOk
    ledgerEmpty rfl rfl⟩

/-- Counterexample to C7 as stated: an exception thrown by the scan
stage of the initial cycle (here: the mint account is missing)
propagates past the orchestrator boundary —
`startAutomaticHarvestingWithSwap` itself fails instead of catching. -/
theorem claim_C7_counterexample :
    startAutomaticHarvestingWithSwap 0 cfgTestOff (.ok ()) swapEnvQuoteDown sendAllOk
      ledgerNoMint [] = .error "Mint account not found" := rfl

/-- Claim C7 amended: only the scheduled interval cycles are guarded —
a scheduled tick whose cycle fails is caught and reported as a logged
outcome, never a propagated exception; the orchestrator call fails
exactly when the unguarded initial cycle fails. -/
theorem claim_C7_amended (threshHold : ℚ) (cfg : HSDConfig)
    (submit : Except String Unit) (swapEnv : SwapEnv)
    (send : Recipient → ℤ → Except String String)
    (ledger : Ledger) (tickLedgers : List Ledger) :
    (∀ e, startAutomaticHarvestingWithSwap threshHold cfg submit swapEnv send ledger
        tickLedgers = .error e ↔
      runCycle threshHold cfg submit swapEnv send ledger = .error e)
    ∧ (∀ r, runCycle threshHold cfg submit swapEnv send ledger = .ok r →
        startAutomaticHarvestingWithSwap threshHold cfg submit swapEnv send ledger
          tickLedgers =
          .ok (r, tickLedgers.map (scheduledTick threshHold cfg submit swapEnv send)))
    ∧ (∀ l e, runCycle threshHold cfg submit swapEnv send l = .error e →
        scheduledTick threshHold cfg submit swapEnv send l = .caught e) := by
  refine ⟨?_, ?_, ?_⟩
  · intro e
    unfold startAutomaticHarvestingWithSwap
    cases hrc : runCycle threshHold cfg submit swapEnv send ledger with
    | error e' => simp [hrc]
    | ok r => simp [hrc]
  · intro r hr
    unfold startAutomaticHarvestingWithSwap
    rw [hr]
  · intro l e hl
    unfold scheduledTick
    rw [hl]

/-- Claim C8: a successful swap reports as received exactly the quote's
expected output amount converted to SOL
(`parseInt(quoteData.outAmount) / LAMPORTS_PER_SOL`); nothing else in
the environment — in particular no post-confirmation balance delta — is
consulted for it. -/
theorem claim_C8_swap_reports_quote (env : SwapEnv) (amount : Nat) (sol : ℚ)
    (signature : String)
    (h : swapTokensToSol env amount = .ok sol signature) :
    ∃ outAmount, env.quoteResult amount = .ok outAmount ∧
      sol = (outAmount : ℚ) / (LAMPORTS_PER_SOL : ℚ) := by
  unfold swapTokensToSol at h
  split at h
  · exact SwapResult.noConfusion h
  next outAmount hq =>
    split at h
    · exact SwapResult.noConfusion h
    · split at h
      · exact SwapResult.noConfusion h
      · split at h
        · exact SwapResult.noConfusion h
        · simp only [SwapResult.ok.injEq] at h
          exact ⟨outAmount, hq, h.1.symm⟩

/-- Witness for C8 at a concrete input: a fully successful environment
quoting 1000000 lamports reports exactly 0.001 SOL received. -/
theorem claim_C8_witness :
    swapTokensToSol swapEnvOk 5 = .ok ((1 : ℚ)/1000) "swapsig"
    ∧ ∃ outAmount, swapEnvOk.quoteResult 5 = .ok outAmount ∧
        (1 : ℚ)/1000 = (outAmount : ℚ) / (LAMPORTS_PER_SOL : ℚ) := by
  have h : swapTokensToSol swapEnvOk 5 = .ok ((1 : ℚ)/1000) "swapsig" := by
    simp only [swapTokensToSol, swapEnvOk, LAMPORTS_PER_SOL]
    norm_num
  exact ⟨h, claim_C8_swap_reports_quote swapEnvOk 5 ((1 : ℚ)/1000) "swapsig" h⟩

/-- Claim C5: when the recipients' percentages sum away from 100 by more
than the 0.01 epsilon, `distributeSol` emits the warning and proceeds
without renormalizing: no error is recorded, every recipient still gets
the literal `totalAmount * percentage / 100` share (floored to
lamports, skipped when below one), and success is still judged by
whether any transfer landed. -/
theorem claim_C5_percent_mismatch (send : Recipient → ℤ → Except String String)
    (total : ℚ) (rs : List Recipient)
    (h : (1 : ℚ)/100 < |((rs.map (·.percentage)).sum) - 100|) :
    (distributeSol send total rs).warned = true
    ∧ (distributeSol send total rs).error = none
    ∧ ((distributeSol send total rs).distributions = rs.filterMap fun r =>
        if Int.floor (total * r.percentage / 100 * (LAMPORTS_PER_SOL : ℚ)) < 1 then none
        else
          match send r (Int.floor (total * r.percentage / 100 * (LAMPORTS_PER_SOL : ℚ))) with
          | .ok sig => some ⟨r.address, total * r.percentage / 100, sig⟩
          | .error _ => none)
    ∧ ((distributeSol send total rs).success = true ↔
        (distributeSol send total rs).distributions ≠ []) := by
  refine ⟨?_, rfl, ?_, ?_⟩
  · simp only [distributeSol]
    exact decide_eq_true h
  · show (distributeSolRun send total rs).1 = _
    rw [distributeSolRun_fst]
    rfl
  · simp only [distributeSol, decide_eq_true_eq]
    exact List.length_pos

/-- Witness for C5 at a concrete input: two recipients at 45 percent
each (sum 90), total 100 SOL, every transfer confirming. -/
theorem claim_C5_witness :
    ((1 : ℚ)/100 <
      |(([⟨"w1", 45⟩, ⟨"w2", 45⟩] : List Recipient).map (·.percentage)).sum - 100|)
    ∧ ((distributeSol sendAllOk 100 [⟨"w1", 45⟩, ⟨"w2", 45⟩]).warned = true
      ∧ (distributeSol sendAllOk 100 [⟨"w1", 45⟩, ⟨"w2", 45⟩]).error = none
      ∧ ((distributeSol sendAllOk 100 [⟨"w1", 45⟩, ⟨"w2", 45⟩]).distributions =
          ([⟨"w1", 45⟩, ⟨"w2", 45⟩] : List Recipient).filterMap fun r =>
            if Int.floor ((100 : ℚ) * r.percentage / 100 * (LAMPORTS_PER_SOL : ℚ)) < 1
            then none
            else
              match sendAllOk r
                (Int.floor ((100 : ℚ) * r.percentage / 100 * (LAMPORTS_PER_SOL : ℚ))) with
              | .ok sig => some ⟨r.address, (100 : ℚ) * r.percentage / 100, sig⟩
              | .error _ => none)
      ∧ ((distributeSol sendAllOk 100 [⟨"w1", 45⟩, ⟨"w2", 45⟩]).success = true ↔
          (distributeSol sendAllOk 100 [⟨"w1", 45⟩, ⟨"w2", 45⟩]).distributions ≠ [])) :=
  ⟨by norm_num, claim_C5_percent_mismatch sendAllOk 100 [⟨"w1", 45⟩, ⟨"w2", 45⟩]
    (by norm_num)⟩

/-- Claim C3: both distribution operations compute each recipient's
share as `totalAmount * percentage / 100`, floor it to the asset's
smallest unit (lamports for SOL; the token's base unit for tokens), and
skip any recipient whose floored unit amount is below one: no transfer
is attempted for it, no error is recorded, and — each kept recipient's
entry being the literal floored share of the whole pool, independent of
the other recipients — the flooring remainder is not redistributed. -/
theorem claim_C3_floor_skip (send sendT : Recipient → ℤ → Except String String)
    (total totalT : ℚ) (rs rsT : List Recipient) (mo : ProgramId) :
    ((distributeSol send total rs).distributions = rs.filterMap fun r =>
        if Int.floor (total * r.percentage / 100 * (LAMPORTS_PER_SOL : ℚ)) < 1 then none
        else
          match send r (Int.floor (total * r.percentage / 100 * (LAMPORTS_PER_SOL : ℚ))) with
          | .ok sig => some ⟨r.address, total * r.percentage / 100, sig⟩
          | .error _ => none)
    ∧ (∀ p ∈ (distributeSolRun send total rs).2, 1 ≤ p.2)
    ∧ (∀ r ∈ rs, solLamports total r < 1 →
        (r.address, solLamports total r) ∉ (distributeSolRun send total rs).2)
    ∧ (distributeSol send total rs).error = none
    ∧ ((distributeTokens (some mo) sendT totalT rsT).distributions =
        rsT.filterMap fun r =>
          if Int.floor (totalT * r.percentage / 100) < 1 then none
          else
            match sendT r (Int.floor (totalT * r.percentage / 100)) with
            | .ok sig => some ⟨r.address, (Int.floor (totalT * r.percentage / 100) : ℚ), sig⟩
            | .error _ => none)
    ∧ (∀ p ∈ (distributeTokensRun sendT totalT rsT).2, 1 ≤ p.2)
    ∧ (∀ r ∈ rsT, tokenShare totalT r < 1 →
        (r.address, tokenShare totalT r) ∉ (distributeTokensRun sendT totalT rsT).2)
    ∧ (distributeTokens (some mo) sendT totalT rsT).error = none := by
  refine ⟨?_, ?_, ?_, rfl, ?_, ?_, ?_, rfl⟩
  · show (distributeSolRun send total rs).1 = _
    rw [distributeSolRun_fst]
    rfl
  · intro p hp
    rw [distributeSolRun_snd] at hp
    simp only [List.mem_map, List.mem_filter, decide_eq_true_eq] at hp
    obtain ⟨r, ⟨-, h1⟩, rfl⟩ := hp
    exact h1
  · intro r hr hl hmem
    rw [distributeSolRun_snd] at hmem
    simp only [List.mem_map, List.mem_filter, decide_eq_true_eq, Prod.mk.injEq] at hmem
    obtain ⟨r', ⟨-, h1⟩, -, h2⟩ := hmem
    omega
  · show (distributeTokensRun sendT totalT rsT).1 = _
    rw [distributeTokensRun_fst]
    rfl
  · intro p hp
    rw [distributeTokensRun_snd] at hp
    simp only [List.mem_map, List.mem_filter, decide_eq_true_eq] at hp
    obtain ⟨r, ⟨-, h1⟩, rfl⟩ := hp
    exact h1
  · intro r hr hl hmem
    rw [distributeTokensRun_snd] at hmem
    simp only [List.mem_map, List.mem_filter, decide_eq_true_eq, Prod.mk.injEq] at hmem
    obtain ⟨r', ⟨-, h1⟩, -, h2⟩ := hmem
    omega

/-- Claim C4: a distribution result's list is exactly, in input order,
the non-skipped recipients whose individual transfer succeeded — each
with its computed amount and transaction signature; every non-skipped
recipient is attempted regardless of other recipients' failures; and
the success flag is true iff that list is nonempty. -/
theorem claim_C4_result_exact (send sendT : Recipient → ℤ → Except String String)
    (total totalT : ℚ) (rs rsT : List Recipient) (mo : ProgramId) :
    ((distributeSol send total rs).distributions = rs.filterMap fun r =>
        if solLamports total r < 1 then none
        else
          match send r (solLamports total r) with
          | .ok sig => some ⟨r.address, solShare total r, sig⟩
          | .error _ => none)
    ∧ ((distributeSol send total rs).success = true ↔
        (distributeSol send total rs).distributions ≠ [])
    ∧ (∀ r ∈ rs, 1 ≤ solLamports total r →
        (r.address, solLamports total r) ∈ (distributeSolRun send total rs).2)
    ∧ ((distributeTokens (some mo) sendT totalT rsT).distributions =
        rsT.filterMap fun r =>
          if tokenShare totalT r < 1 then none
          else
            match sendT r (tokenShare totalT r) with
            | .ok sig => some ⟨r.address, (tokenShare totalT r : ℚ), sig⟩
            | .error _ => none)
    ∧ ((distributeTokens (some mo) sendT totalT rsT).success = true ↔
        (distributeTokens (some mo) sendT totalT rsT).distributions ≠ [])
    ∧ (∀ r ∈ rsT, 1 ≤ tokenShare totalT r →
        (r.address, tokenShare totalT r) ∈ (distributeTokensRun sendT totalT rsT).2) := by
  refine ⟨distributeSolRun_fst send total rs, ?_, ?_,
    distributeTokensRun_fst sendT totalT rsT, ?_, ?_⟩
  · simp only [distributeSol, decide_eq_true_eq]
    exact List.length_pos
  · intro r hr h1
    rw [distributeSolRun_snd]
    exact List.mem_map_of_mem _ (List.mem_filter.mpr ⟨hr, decide_eq_true h1⟩)
  · simp only [distributeTokens, decide_eq_true_eq]
    exact List.length_pos
  · intro r hr h1
    rw [distributeTokensRun_snd]
    exact List.mem_map_of_mem _ (List.mem_filter.mpr ⟨hr, decide_eq_true h1⟩)

end FeeDistributor
